import Mathlib

/-!
# Listing browser UI: the click handlers of `static/main.js` and `vecel/public/script.js`

Both scripts are event-driven DOM code around a handful of HTTP calls.  The
embedding is state passing: a click handler is a function from the page state
at the click and the reply the network gives to the page state once the
handler has settled.  Effects that the claims talk about (requests issued,
alerts shown, calls on the loading modal, downloads) are logs inside the page
state.

Platform behaviour the handlers rely on is modelled next to them:
`String.prototype.trim`, `ToBoolean`, `ToString`, member reads on the values
`JSON.parse` returns, `Array.prototype.forEach`, and the part of the HTML
fragment parser that a table row assigned through `innerHTML` goes through.
What the model does not fix (the wording of engine-raised `TypeError`s, the
numeric reading of a string, markup beyond the modelled fragment) is a field
of `Browser`; the general theorems hold for every `Browser`, and the
evaluations at concrete inputs use the sample `chromium`.

Strings are sequences of Unicode scalar values, so lone surrogates, which a
JavaScript string may hold, are outside the model.
-/

set_option maxRecDepth 100000

namespace Apt

/-! ## JavaScript values -/

/-- The values `JSON.parse` returns.  Numbers are the integers; an object is
the list of its own members, the first entry of a name being the one read. -/
inductive Json where
  | null
  | bool (b : Bool)
  | num (n : Int)
  | str (s : String)
  | arr (items : List Json)
  | obj (members : List (String × Json))

mutual
/-- `ToString(v)` for a value that came out of `JSON.parse`. -/
def Json.text : Json → String
  | .null => "null"
  | .bool true => "true"
  | .bool false => "false"
  | .num n => toString n
  | .str s => s
  | .arr xs => joinText xs
  | .obj _ => "[object Object]"
/-- `Array.prototype.join(",")`: a `null` element contributes the empty string. -/
def joinText : List Json → String
  | [] => ""
  | [.null] => ""
  | [x] => x.text
  | .null :: xs => "," ++ joinText xs
  | x :: xs => x.text ++ "," ++ joinText xs
end

/-- Four lowercase hexadecimal digits, as `\\uXXXX` escapes have them. -/
def hex4 (n : Nat) : List Char :=
  [Nat.digitChar (n / 4096 % 16), Nat.digitChar (n / 256 % 16), Nat.digitChar (n / 16 % 16),
    Nat.digitChar (n % 16)]

/-- One character inside a JSON string literal (`QuoteJSONString`). -/
def quoteChar (c : Char) : List Char :=
  if c = '"' then ['\\', '"']
  else if c = '\\' then ['\\', '\\']
  else if c.val = 0x08 then ['\\', 'b']
  else if c.val = 0x09 then ['\\', 't']
  else if c.val = 0x0A then ['\\', 'n']
  else if c.val = 0x0C then ['\\', 'f']
  else if c.val = 0x0D then ['\\', 'r']
  else if c.val < 0x20 then '\\' :: 'u' :: hex4 c.val.toNat
  else [c]

/-- A string as a JSON string literal. -/
def quoteJson (s : String) : String :=
  ⟨'"' :: (s.data.map quoteChar).flatten ++ ['"']⟩

mutual
/-- `JSON.stringify(v)` without indentation, for values whose objects list
their members in creation order under distinct names that are not array
indices (the export builds such objects). -/
def Json.stringify : Json → String
  | .null => "null"
  | .bool true => "true"
  | .bool false => "false"
  | .num n => toString n
  | .str s => quoteJson s
  | .arr xs => "[" ++ stringifyItems xs ++ "]"
  | .obj ms => "\x7b" ++ stringifyMembers ms ++ "\x7d"
/-- The elements of an array, separated by commas. -/
def stringifyItems : List Json → String
  | [] => ""
  | [x] => x.stringify
  | x :: xs => x.stringify ++ "," ++ stringifyItems xs
/-- The members of an object, separated by commas. -/
def stringifyMembers : List (String × Json) → String
  | [] => ""
  | [(k, v)] => quoteJson k ++ ":" ++ v.stringify
  | (k, v) :: ms => quoteJson k ++ ":" ++ v.stringify ++ "," ++ stringifyMembers ms
end

/-- `ToBoolean` of the result of a member read; `none` is `undefined`. -/
def truthy : Option Json → Bool
  | none => false
  | some .null => false
  | some (.bool b) => b
  | some (.num n) => n != 0
  | some (.str s) => s != ""
  | some (.arr _) => true
  | some (.obj _) => true

/-- `ToString` of the result of a member read, as a template literal and a
`DOMString` attribute setter apply it. -/
def textOf : Option Json → String
  | none => "undefined"
  | some v => v.text

/-- The operand `v || ''` of the row template, converted to text. -/
def orEmpty (v : Option Json) : String :=
  if truthy v then textOf v else ""

/-- The text a `textContent` setter stores: `textContent` is a nullable
`DOMString`, so both `undefined` and `null` clear the node. -/
def textContentOf : Option Json → String
  | none => ""
  | some .null => ""
  | some v => v.text

/-- Number of UTF-16 code units of a string, which is what `length` reports. -/
def utf16Length (s : String) : Nat :=
  (s.data.map (fun c => if c.val < 0x10000 then 1 else 2)).sum

/-- What a handler can find thrown at it. -/
inductive Thrown where
  /-- reading a member of `null` -/
  | readOfNull (key : String)
  /-- reading a member of `undefined` -/
  | readOfUndefined (key : String)
  /-- calling a member that is not a function -/
  | notAFunction (key : String)
  /-- a rejected `fetch` or body read; `message` is its `error.message` -/
  | rejected (message : String)
  deriving DecidableEq, Repr

/-- The parts of the platform the model leaves open. -/
structure Browser where
  /-- `error.message` of an engine-raised `TypeError` -/
  typeErrorMessage : Thrown → String
  /-- whether `ToNumber(s) > 0` for a string `s` -/
  stringGtZero : String → Bool
  /-- text of the cells of a `tr` whose `innerHTML` is set to markup outside
  the fragment that `parseCells` covers -/
  rowCells : String → List String

/-- `error.message` as the `catch` blocks read it. -/
def Browser.messageOf (B : Browser) : Thrown → String
  | .rejected m => m
  | t => B.typeErrorMessage t

/-- `v[key]` for the member names the handlers read (`error`, `complexes`,
`data`, `length`, `complexNo`, `complexName` and the listing fields): none of
them is an index or lives on a prototype, so only `null` throws, an object
answers from its own members, arrays and strings answer `length`. -/
def member (v : Json) (key : String) : Except Thrown (Option Json) :=
  match v with
  | .null => .error (.readOfNull key)
  | .obj ms => .ok (ms.lookup key)
  | .arr xs => .ok (if key = "length" then some (.num xs.length) else none)
  | .str s => .ok (if key = "length" then some (.num (utf16Length s)) else none)
  | _ => .ok none

/-- `v > 0` for the result of a member read. -/
def gtZero (B : Browser) : Option Json → Bool
  | none => false
  | some .null => false
  | some (.bool b) => b
  | some (.num n) => decide (0 < n)
  | some (.str s) => B.stringGtZero s
  | some (.arr xs) => B.stringGtZero (joinText xs)
  | some (.obj _) => false

/-- `Array.prototype.forEach` with a callback that updates a state and may
throw: elements are visited in order with their index, and a throw ends the
loop with the state reached so far. -/
def forEach {σ : Type} (f : Json → Nat → σ → σ × Option Thrown) :
    List Json → Nat → σ → σ × Option Thrown
  | [], _, s => (s, none)
  | x :: xs, i, s =>
    match f x i s with
    | (s', some e) => (s', some e)
    | (s', none) => forEach f xs (i + 1) s'

/-- `v.forEach(callback)`: only an array has a callable `forEach`. -/
def callForEach {σ : Type} (v : Option Json) (f : Json → Nat → σ → σ × Option Thrown)
    (s : σ) : σ × Option Thrown :=
  match v with
  | none => (s, some (.readOfUndefined "forEach"))
  | some .null => (s, some (.readOfNull "forEach"))
  | some (.arr xs) => forEach f xs 0 s
  | some _ => (s, some (.notAFunction "forEach"))

/-! ## `String.prototype.trim` -/

/-- ECMAScript `WhiteSpace` and `LineTerminator` code points. -/
def isJsWhiteSpace (c : Char) : Bool :=
  c.val = 0x09 || c.val = 0x0A || c.val = 0x0B || c.val = 0x0C || c.val = 0x0D ||
  c.val = 0x20 || c.val = 0xA0 || c.val = 0x1680 ||
  (0x2000 ≤ c.val && c.val ≤ 0x200A) ||
  c.val = 0x2028 || c.val = 0x2029 || c.val = 0x202F || c.val = 0x205F ||
  c.val = 0x3000 || c.val = 0xFEFF

/-- `s.trim()`. -/
def jsTrim (s : String) : String :=
  ⟨((s.data.dropWhile isJsWhiteSpace).reverse.dropWhile isJsWhiteSpace).reverse⟩

/-! ## Network -/

/-- A request handed to `fetch`. -/
inductive Request where
  /-- `POST` of a `FormData` with the fields appended to it -/
  | postForm (url : String) (fields : List (String × String))
  /-- `GET` of a URL -/
  | get (url : String)
  /-- `POST` with content type `application/json` and the body text -/
  | postJson (url : String) (body : String)
  deriving DecidableEq, Repr

/-- Outcome of `response.json()`. -/
inductive Body where
  | unparsable (message : String)
  | parsed (data : Json)

/-- Outcome of a `fetch` whose body is read as JSON. -/
inductive Reply where
  | failed (message : String)
  | response (ok : Bool) (body : Body)

/-- Outcome of the export `fetch`, whose body is read as a blob. -/
inductive BlobReply where
  | failed (message : String)
  | response (ok : Bool) (blob : String)

/-! ## Shared DOM pieces -/

/-- An `option` element. -/
structure SelectOption where
  value : String
  text : String
  deriving DecidableEq, Repr

/-- A `select` element. -/
structure Select where
  options : List SelectOption
  selectedIndex : Nat
  disabled : Bool
  deriving DecidableEq, Repr

/-- `select.value`: the value of the selected option, `""` without one. -/
def Select.value (s : Select) : String :=
  match s.options.get? s.selectedIndex with
  | some o => o.value
  | none => ""

/-- The option that `'<option value="">단지를 선택하세요</option>'` parses to. -/
def placeholderOption : SelectOption := { value := "", text := "단지를 선택하세요" }

/-- `select.innerHTML = '<option value="">단지를 선택하세요</option>'`. -/
def Select.reset (s : Select) : Select :=
  { s with options := [placeholderOption], selectedIndex := 0 }

/-- `select.appendChild(option)` on a select that has a selected option. -/
def Select.appendChild (s : Select) (o : SelectOption) : Select :=
  { s with options := s.options ++ [o] }

/-- The callback of both region searches: build the option of one complex. -/
def complexOption (complex : Json) : Except Thrown SelectOption := do
  let value := textOf (← member complex "complexNo")
  let name := textOf (← member complex "complexName")
  let no := textOf (← member complex "complexNo")
  pure { value := value, text := name ++ " (" ++ no ++ ")" }

/-- One step of the option loop: the option is appended unless building it threw. -/
def appendComplex (complex : Json) (_index : Nat) (s : Select) : Select × Option Thrown :=
  match complexOption complex with
  | .error e => (s, some e)
  | .ok o => (s.appendChild o, none)

/-- A table row: the text of its cells. -/
abbrev Row := List String

/-- The listing fields in column order. -/
def listingFields : List String :=
  ["아파트명", "거래유형", "층수", "월세", "거래가격", "면적(m²)", "방향", "등록일", "동",
   "중개사무소", "특징"]

/-! ## A table row assigned through `innerHTML`

`row.innerHTML = html` runs the HTML fragment parser with a `tr` as context.
`parseCells` follows it on the fragment of HTML that the row template with
text values produces: character data, the references `&amp;` `&lt;` `&gt;`
`&quot;`, a `<` or `&` that starts nothing, and the tags `<td>` and `</td>`.
On anything else it answers `none` and the row is what `Browser.rowCells`
says. -/

/-- Preprocessing of the parser's input stream: CR LF and a lone CR become LF. -/
def normalizeNewlines : List Char → List Char
  | [] => []
  | c :: cs =>
    if c = '\r' then
      if cs.head? = some '\n' then normalizeNewlines cs else '\n' :: normalizeNewlines cs
    else c :: normalizeNewlines cs

/-- Tokenizer states that the fragment needs. -/
inductive Mode where
  /-- data state -/
  | data
  /-- tag open state: a `<` has been read -/
  | tagOpen
  /-- inside a tag, with the characters read since the `<` -/
  | tagName (name : List Char)
  /-- character reference state: a `&` has been read -/
  | charRef
  /-- named character reference state, with the characters read since the `&` -/
  | namedRef (name : List Char)
  deriving DecidableEq, Repr

/-- Parser state: tokenizer mode, the cells closed so far, and the text of
the open cell (`none` between cells, where the insertion mode is "in row"). -/
structure RowParser where
  mode : Mode
  cells : List String
  cell : Option (List Char)
  deriving DecidableEq, Repr

/-- A character token.  Inside a cell it is appended to the cell; in row
context it is text of the row itself (foster parented or not) and belongs to
no cell. -/
def RowParser.insert (st : RowParser) (c : Char) : RowParser :=
  match st.cell with
  | none => st
  | some t => { st with cell := some (t ++ [c]) }

/-- The cells once the open cell, if any, is closed. -/
def RowParser.closed (st : RowParser) : List String :=
  match st.cell with
  | none => st.cells
  | some t => st.cells ++ [String.mk t]

/-- One character in the data state; U+0000 is a parse error and is ignored. -/
def RowParser.dataChar (st : RowParser) (c : Char) : RowParser :=
  if c = '<' then { st with mode := .tagOpen }
  else if c = '&' then { st with mode := .charRef }
  else if c = Char.ofNat 0 then { st with mode := .data }
  else { st.insert c with mode := .data }

/-- The tag that a `>` completes.  `<td>` closes an open cell and opens a
cell; `</td>` closes the open cell and is ignored in row context. -/
def RowParser.tag (st : RowParser) (name : List Char) : Option RowParser :=
  if name = ['t', 'd'] then some { mode := .data, cells := st.closed, cell := some [] }
  else if name = ['/', 't', 'd'] then some { mode := .data, cells := st.closed, cell := none }
  else none

/-- The named reference that a `;` completes. -/
def RowParser.reference (st : RowParser) (name : List Char) : Option RowParser :=
  if name = ['a', 'm', 'p'] then some { st.insert '&' with mode := .data }
  else if name = ['l', 't'] then some { st.insert '<' with mode := .data }
  else if name = ['g', 't'] then some { st.insert '>' with mode := .data }
  else if name = ['q', 'u', 'o', 't'] then some { st.insert '"' with mode := .data }
  else none

/-- One input character. -/
def RowParser.step (st : RowParser) (c : Char) : Option RowParser :=
  match st.mode with
  | .data => some (st.dataChar c)
  | .tagOpen =>
    if c.isAlpha || c = '/' then some { st with mode := .tagName [c] }
    else if c = '!' || c = '?' then none
    else some ((st.insert '<').dataChar c)
  | .tagName name =>
    if c = '>' then st.tag name else some { st with mode := .tagName (name ++ [c]) }
  | .charRef =>
    if c.isAlphanum then some { st with mode := .namedRef [c] }
    else if c = '#' then none
    else some ((st.insert '&').dataChar c)
  | .namedRef name =>
    if c = ';' then st.reference name
    else if c.isAlphanum then some { st with mode := .namedRef (name ++ [c]) }
    else none

/-- End of input. -/
def RowParser.finish (st : RowParser) : Option (List String) :=
  match st.mode with
  | .data => some st.closed
  | .tagOpen => some (st.insert '<').closed
  | .charRef => some (st.insert '&').closed
  | _ => none

/-- Text of the cells of a row whose `innerHTML` is `html`, where the
fragment covers it. -/
def parseCells (html : String) : Option (List String) :=
  ((normalizeNewlines html.data).foldlM RowParser.step
    { mode := .data, cells := [], cell := none }).bind RowParser.finish

/-- The state of a row after `row.innerHTML = html`. -/
def rowOfInnerHTML (B : Browser) (html : String) : Row :=
  match parseCells html with
  | some cells => cells
  | none => B.rowCells html

/-! ## `static/main.js`: the modal variant -/

namespace Static

/-- A call on the `bootstrap.Modal` built over `#loadingModal`. -/
inductive ModalCall where
  | showCall
  | hideCall
  deriving DecidableEq, Repr

/-- A click on the anchor that the export builds: the blob behind its object
URL and its `download` attribute. -/
structure Download where
  blob : String
  download : String
  deriving DecidableEq, Repr

/-- The page of `static/main.js`. -/
structure Page where
  /-- `#region`, the text input -/
  region : String
  /-- `#complex` -/
  complex : Select
  /-- value of `#tradeType` -/
  tradeType : String
  /-- the rows of `#dataTable tbody` -/
  rows : List Row
  /-- messages passed to `alert`, oldest first -/
  alerts : List String
  /-- calls on the loading modal, oldest first -/
  loadingModal : List ModalCall
  /-- requests handed to `fetch`, oldest first -/
  requests : List Request
  /-- blobs passed to `URL.createObjectURL`, oldest first -/
  objectURLs : List String
  /-- anchors clicked, oldest first -/
  downloads : List Download

/-- `alert(message)`. -/
def Page.alert (p : Page) (message : String) : Page :=
  { p with alerts := p.alerts ++ [message] }

/-- The `.catch` of the region search. -/
def searchRegionCatch (p : Page) : Page :=
  p.alert "검색 중 오류가 발생했습니다."

/-- The `.then(data => ...)` of the region search. -/
def searchRegionThen (p : Page) (data : Json) : Page × Option Thrown :=
  match member data "error" with
  | .error e => (p, some e)
  | .ok err =>
    if truthy err then (p.alert (textOf err), none)
    else
      let p := { p with complex := p.complex.reset }
      match member data "complexes" with
      | .error e => (p, some e)
      | .ok complexes =>
        let (complex, thrown) := callForEach complexes appendComplex p.complex
        ({ p with complex := complex }, thrown)

/-- Click on `#searchRegion`, with the reply of `POST /search`. -/
def searchRegionClick (p : Page) (reply : Reply) : Page :=
  let region := jsTrim p.region
  if region = "" then p.alert "지역명을 입력하세요."
  else
    let p := { p with requests := p.requests ++ [.postForm "/search" [("keyword", region)]] }
    match reply with
    | .failed _ => searchRegionCatch p
    | .response _ (.unparsable _) => searchRegionCatch p
    | .response _ (.parsed data) =>
      match searchRegionThen p data with
      | (p', some _) => searchRegionCatch p'
      | (p', none) => p'

/-- One line of the row template: the markup of a cell around the text `v`. -/
def cellHTML (v : String) : String :=
  "                    <td>" ++ v ++ "</td>\n"

/-- The template literal assigned to `row.innerHTML`: a line break, the twelve
cell lines (`index + 1`, then `item[key] || ''` for each listing field), and
the indentation before the closing backtick. -/
def rowHTML (index : Nat) (item : Json) : Except Thrown String := do
  let values ← listingFields.mapM (fun key => do pure (orEmpty (← member item key)))
  pure ("\n" ++ String.join ((toString (index + 1) :: values).map cellHTML) ++
    "                ")

/-- The callback of `data.data.forEach`: the row is appended unless the
template threw. -/
def appendRow (B : Browser) (item : Json) (index : Nat) (rows : List Row) :
    List Row × Option Thrown :=
  match rowHTML index item with
  | .error e => (rows, some e)
  | .ok html => (rows ++ [rowOfInnerHTML B html], none)

/-- The `.catch` of the listing fetch. -/
def fetchDataCatch (p : Page) : Page :=
  Page.alert { p with loadingModal := p.loadingModal ++ [.hideCall] }
    "데이터 수집 중 오류가 발생했습니다."

/-- The `.then(data => ...)` of the listing fetch. -/
def fetchDataThen (B : Browser) (p : Page) (data : Json) : Page × Option Thrown :=
  let p := { p with loadingModal := p.loadingModal ++ [.hideCall] }
  match member data "error" with
  | .error e => (p, some e)
  | .ok err =>
    if truthy err then (p.alert (textOf err), none)
    else
      let p := { p with rows := [] }
      match member data "data" with
      | .error e => (p, some e)
      | .ok items =>
        let (rows, thrown) := callForEach items (appendRow B) p.rows
        ({ p with rows := rows }, thrown)

/-- Click on `#fetchData`, with the reply of `POST /fetch_data`. -/
def fetchDataClick (B : Browser) (p : Page) (reply : Reply) : Page :=
  if p.complex.value = "" then p.alert "아파트 단지를 선택하세요."
  else
    let p := { p with
      loadingModal := p.loadingModal ++ [.showCall]
      requests := p.requests ++ [.postForm "/fetch_data"
        [("complex_no", p.complex.value), ("trade_type", p.tradeType)]] }
    match reply with
    | .failed _ => fetchDataCatch p
    | .response _ (.unparsable _) => fetchDataCatch p
    | .response _ (.parsed data) =>
      match fetchDataThen B p data with
      | (p', some _) => fetchDataCatch p'
      | (p', none) => p'

/-- Keys of the exported row objects, in the order the handler writes them. -/
def exportKeys : List String := "순번" :: listingFields

/-- The object built from one row, from `cells[0]` to `cells[11]`; `none`
when a cell is missing, where reading `.textContent` throws. -/
def rowObject (row : Row) : Option Json :=
  if 12 ≤ row.length then some (.obj (exportKeys.zip (row.map Json.str))) else none

/-- The `.catch` of the export. -/
def downloadExcelCatch (p : Page) : Page :=
  p.alert "엑셀 다운로드 중 오류가 발생했습니다."

/-- Click on `#downloadExcel`, with the reply of `POST /download_excel`. -/
def downloadExcelClick (p : Page) (reply : BlobReply) : Page :=
  if p.rows.length = 0 then p.alert "다운로드할 데이터가 없습니다."
  else
    match p.rows.mapM rowObject with
    | none => p -- the `TypeError` leaves the handler before `fetch`, uncaught
    | some data =>
      let p := { p with requests := p.requests ++
        [.postJson "/download_excel" (Json.stringify (.obj [("data", .arr data)]))] }
      match reply with
      | .failed _ => downloadExcelCatch p
      | .response false _ => downloadExcelCatch p
      | .response true blob =>
        { p with
          objectURLs := p.objectURLs ++ [blob]
          downloads := p.downloads ++ [{ blob := blob, download := "real_estate_data.xlsx" }] }

end Static

/-! ## `vecel/public/script.js`: the async variant -/

namespace Vecel

/-- The `#status-message` element: its text and its colour. -/
structure Status where
  textContent : String
  color : String
  deriving DecidableEq, Repr

/-- The page of `vecel/public/script.js`. -/
structure Page where
  /-- value of `#region-input` -/
  regionInput : String
  /-- `#complex-select` -/
  complexSelect : Select
  /-- value of `#trade-type-select` -/
  tradeTypeSelect : String
  /-- `disabled` of `#start-crawling-btn` -/
  startCrawlingBtnDisabled : Bool
  /-- `#status-message` -/
  statusMessage : Status
  /-- the rows of `#data-table tbody` -/
  dataTableBody : List Row
  /-- the script variable `complexesData` -/
  complexesData : Json
  /-- requests handed to `fetch`, oldest first -/
  requests : List Request

/-- `updateStatus(message, isError)`. -/
def updateStatus (p : Page) (message : String) (isError : Bool) : Page :=
  { p with statusMessage :=
      { textContent := message, color := if isError then "#E76F51" else "#457B9D" } }

/-- The `try` block of the region search. -/
def searchRegionTry (B : Browser) (p : Page) (reply : Reply) : Page × Option Thrown :=
  match reply with
  | .failed m => (p, some (.rejected m))
  | .response _ (.unparsable m) => (p, some (.rejected m))
  | .response true (.parsed data) =>
    match member data "length" with
    | .error e => (p, some e)
    | .ok len =>
      if gtZero B len then
        let p := { p with complexesData := data }
        match callForEach (some data) appendComplex p.complexSelect with
        | (select, some e) => ({ p with complexSelect := select }, some e)
        | (select, none) =>
          let p := { p with complexSelect := { select with disabled := false } }
          (updateStatus p (textOf len ++ "개의 단지를 찾았습니다.") false, none)
      else (updateStatus p "해당 지역에 단지가 없습니다." true, none)
  | .response false (.parsed data) =>
    match member data "error" with
    | .error e => (p, some e)
    | .ok err =>
      (updateStatus p ("오류: " ++ (if truthy err then textOf err else "알 수 없는 오류")) true,
        none)

/-- Click on `#search-region-btn`, with the reply of `GET /api/search_region`. -/
def searchRegionBtnClick (B : Browser) (p : Page) (reply : Reply) : Page :=
  let keyword := jsTrim p.regionInput
  if keyword = "" then updateStatus p "지역명을 입력하세요." true
  else
    let p := updateStatus p "지역 검색 중..." false
    let p := { p with
      complexSelect := { p.complexSelect.reset with disabled := true }
      complexesData := .arr [] }
    let p := { p with requests := p.requests ++ [.get ("/api/search_region?keyword=" ++ keyword)] }
    match searchRegionTry B p reply with
    | (p', some e) => updateStatus p' ("네트워크 오류: " ++ B.messageOf e) true
    | (p', none) => p'

/-- The cells after the first one: `row.insertCell()` adds an empty cell, then
the member is read (which throws on `null`), then the text is stored. -/
def fillCells (item : Json) : List String → Row → Row × Option Thrown
  | [], row => (row, none)
  | key :: keys, row =>
    match member item key with
    | .error e => (row ++ [""], some e)
    | .ok v => fillCells item keys (row ++ [textContentOf v])

/-- The callback of `data.forEach` in the listing fetch. -/
def insertListing (item : Json) (index : Nat) (rows : List Row) : List Row × Option Thrown :=
  let (row, thrown) := fillCells item listingFields [toString (index + 1)]
  (rows ++ [row], thrown)

/-- The `try` block of the listing fetch. -/
def startCrawlingTry (B : Browser) (p : Page) (reply : Reply) : Page × Option Thrown :=
  match reply with
  | .failed m => (p, some (.rejected m))
  | .response _ (.unparsable m) => (p, some (.rejected m))
  | .response true (.parsed data) =>
    match member data "length" with
    | .error e => (p, some e)
    | .ok len =>
      if gtZero B len then
        let p := updateStatus p ("총 " ++ textOf len ++ "개의 매물을 수집했습니다.") false
        let (rows, thrown) := callForEach (some data) insertListing p.dataTableBody
        ({ p with dataTableBody := rows }, thrown)
      else (updateStatus p "수집된 데이터가 없습니다." false, none)
  | .response false (.parsed data) =>
    match member data "error" with
    | .error e => (p, some e)
    | .ok err =>
      (updateStatus p ("오류: " ++ (if truthy err then textOf err else "알 수 없는 오류")) true,
        none)

/-- Click on `#start-crawling-btn`, with the reply of
`GET /api/get_real_estate_data`. -/
def startCrawlingBtnClick (B : Browser) (p : Page) (reply : Reply) : Page :=
  let selectedComplexNo := p.complexSelect.value
  let selectedTradeType := p.tradeTypeSelect
  if selectedComplexNo = "" then updateStatus p "단지를 선택하세요." true
  else
    let p := updateStatus p "데이터 수집 시작..." false
    let p := { p with startCrawlingBtnDisabled := true, dataTableBody := [] }
    let p := { p with requests := p.requests ++ [.get ("/api/get_real_estate_data?complex_no=" ++
      selectedComplexNo ++ "&trade_type=" ++ selectedTradeType)] }
    let p :=
      match startCrawlingTry B p reply with
      | (p', some e) => updateStatus p' ("네트워크 오류: " ++ B.messageOf e) true
      | (p', none) => p'
    { p with startCrawlingBtnDisabled := false }

end Vecel

/-! ## Vocabulary of the claims

The data model of the specification (complexes, listing records) and what it
means for a reply to carry them, the notions of failure of the two variants,
and the reading of a query string. -/

/-- A complex as the data model has it. -/
structure Complex where
  complexNo : String
  complexName : String
  deriving DecidableEq, Repr

/-- The entry the selection list shows for a complex. -/
def Complex.entry (c : Complex) : SelectOption :=
  { value := c.complexNo, text := c.complexName ++ " (" ++ c.complexNo ++ ")" }

/-- A returned item carries the complex `c`: it has the two members, as strings. -/
def Carries (item : Json) (c : Complex) : Prop :=
  member item "complexNo" = .ok (some (.str c.complexNo)) ∧
  member item "complexName" = .ok (some (.str c.complexName))

/-- Text that the row parser stores as it is: no `<`, no `&`, no carriage
return and no U+0000. -/
def plainChar (c : Char) : Bool :=
  c != '<' && c != '&' && c != '\r' && c != Char.ofNat 0

/-- A listing record as the data model has it: field names with string values. -/
abbrev Listing := List (String × String)

/-- The value of a field of a record, the empty string where the record lacks it. -/
def Listing.cell (r : Listing) (key : String) : String :=
  (r.lookup key).getD ""

/-- No value of the record holds `<`, `&`, a carriage return or U+0000. -/
def Listing.plain (r : Listing) : Bool :=
  listingFields.all (fun key => (r.cell key).data.all plainChar)

/-- A returned item carries the record `r`: on each listing field it has the
value of the record as a string, and lacks the field where the record does. -/
def CarriesListing (item : Json) (r : Listing) : Prop :=
  ∀ key ∈ listingFields, member item key = .ok ((r.lookup key).map Json.str)

/-- The row that shows the record `r` under the number `i`. -/
def Listing.row (i : Nat) (r : Listing) : Row :=
  toString i :: listingFields.map r.cell

/-- The object that the export posts for row `i` showing the record `r`. -/
def Listing.exported (i : Nat) (r : Listing) : Json :=
  .obj (("순번", .str (toString i)) :: listingFields.map (fun key => (key, .str (r.cell key))))

/-- A reply that the modal variant takes for a failure: the request or the
body read is rejected, or the body has a truthy `error` member (or is `null`,
where reading `error` throws). -/
def Static.errored : Reply → Bool
  | .failed _ => true
  | .response _ (.unparsable _) => true
  | .response _ (.parsed data) =>
    match member data "error" with
    | .error _ => true
    | .ok err => truthy err

/-- A reply that the async variant takes for a failure: the request or the
body read is rejected, or the status is not 2xx. -/
def Vecel.errored : Reply → Bool
  | .failed _ => true
  | .response _ (.unparsable _) => true
  | .response ok (.parsed _) => !ok

/-- The pieces of a list of characters between occurrences of `sep`. -/
def splitChars (sep : Char) : List Char → List (List Char)
  | [] => [[]]
  | c :: cs =>
    if c = sep then [] :: splitChars sep cs
    else
      match splitChars sep cs with
      | [] => [[c]]
      | piece :: pieces => (c :: piece) :: pieces

/-- The query of a URL: what stands between the first `?` and the first `#`. -/
def queryOf (url : List Char) : List Char :=
  ((url.takeWhile (fun c => c != '#')).dropWhile (fun c => c != '?')).drop 1

/-- The name and value pairs that a server reads from the query of a URL
(the `application/x-www-form-urlencoded` parser): the query is split at `&`,
empty pieces are skipped, and each piece is split at its first `=`.  The
decoding step (`+` and percent escapes) is left out, so this is the parser on
queries that hold neither. -/
def queryPairs (url : String) : List (String × String) :=
  ((splitChars '&' (queryOf url.data)).filter (fun piece => !piece.isEmpty)).map
    (fun piece => (String.mk (piece.takeWhile (fun c => c != '=')),
      String.mk ((piece.dropWhile (fun c => c != '=')).drop 1)))

/-! ## Sample pages and a sample browser

Concrete inputs on which the theorems below are instantiated. -/

/-- A browser with Chromium's wording of the `TypeError`s.  The two oracles
are only consulted on inputs that none of the samples below reaches. -/
def chromium : Browser where
  typeErrorMessage
    | .readOfNull key => "Cannot read properties of null (reading '" ++ key ++ "')"
    | .readOfUndefined key => "Cannot read properties of undefined (reading '" ++ key ++ "')"
    | .notAFunction key => "data." ++ key ++ " is not a function"
    | .rejected m => m
  stringGtZero := fun _ => false
  rowCells := fun _ => []

/-- A select as the markup ships it: only the placeholder. -/
def emptySelect : Select :=
  { options := [placeholderOption], selectedIndex := 0, disabled := false }

/-- A select after a search that found "Tower A (123)", with that entry selected. -/
def towerSelect : Select :=
  { options := [placeholderOption, { value := "123", text := "Tower A (123)" }],
    selectedIndex := 1, disabled := false }

/-- A fresh page of the modal variant with `region` typed in. -/
def Static.freshPage (region : String) : Static.Page :=
  { region := region, complex := emptySelect, tradeType := "", rows := [], alerts := [],
    loadingModal := [], requests := [], objectURLs := [], downloads := [] }

/-- A page of the modal variant after a search and a fetch: one complex
selected, one listing in the table. -/
def Static.towerPage : Static.Page :=
  { region := "Gangnam", complex := towerSelect, tradeType := "A1",
    rows := [["1", "Tower A", "", "", "", "10억", "", "", "", "", "", ""]], alerts := [],
    loadingModal := [], requests := [], objectURLs := [], downloads := [] }

/-- A fresh page of the async variant with `region` typed in. -/
def Vecel.freshPage (region : String) : Vecel.Page :=
  { regionInput := region, complexSelect := { emptySelect with disabled := true },
    tradeTypeSelect := "", startCrawlingBtnDisabled := false,
    statusMessage := { textContent := "", color := "" }, dataTableBody := [],
    complexesData := .arr [], requests := [] }

/-- A page of the async variant after a search and a fetch. -/
def Vecel.towerPage : Vecel.Page :=
  { regionInput := "Gangnam", complexSelect := towerSelect, tradeTypeSelect := "A1",
    startCrawlingBtnDisabled := false,
    statusMessage := { textContent := "총 1개의 매물을 수집했습니다.", color := "#457B9D" },
    dataTableBody := [["1", "Tower A", "", "", "", "10억", "", "", "", "", "", ""]],
    complexesData := .arr [.obj [("complexNo", .str "123"), ("complexName", .str "Tower A")]],
    requests := [] }

/-- The record of the scenario of the specification. -/
def towerListing : Listing := [("아파트명", "Tower A"), ("거래가격", "10억")]

/-! ## Lemmas on the platform model -/

theorem jsTrim_of_whiteSpace (s : String) (h : ∀ c ∈ s.data, isJsWhiteSpace c = true) :
    jsTrim s = "" := by
  have h1 : s.data.dropWhile isJsWhiteSpace = [] := by
    rw [List.dropWhile_eq_nil_iff]; exact h
  simp [jsTrim, h1]

theorem normalizeNewlines_of_no_cr (l : List Char) (h : ∀ c ∈ l, c ≠ '\r') :
    normalizeNewlines l = l := by
  induction l with
  | nil => rfl
  | cons c cs ih =>
    have hc : c ≠ '\r' := h c (List.mem_cons_self _ _)
    simp [normalizeNewlines, hc, ih (fun d hd => h d (List.mem_cons_of_mem _ hd))]

theorem foldlM_step_append {st st' : RowParser} {l : List Char} (l' : List Char)
    (h : l.foldlM RowParser.step st = some st') :
    (l ++ l').foldlM RowParser.step st = l'.foldlM RowParser.step st' := by
  rw [List.foldlM_append, h]
  rfl

theorem foldlM_step_between_cells (cells : List String) (l : List Char)
    (h : ∀ c ∈ l, c ≠ '<' ∧ c ≠ '&') :
    l.foldlM RowParser.step { mode := .data, cells := cells, cell := none }
      = some { mode := .data, cells := cells, cell := none } := by
  induction l with
  | nil => rfl
  | cons c cs ih =>
    obtain ⟨h1, h2⟩ := h c (List.mem_cons_self _ _)
    have ih' := ih (fun d hd => h d (List.mem_cons_of_mem _ hd))
    by_cases h0 : c = Char.ofNat 0 <;>
      simp [List.foldlM, RowParser.step, RowParser.dataChar, RowParser.insert, h1, h2, h0, ih']

theorem foldlM_step_in_cell (cells : List String) (t l : List Char)
    (h : ∀ c ∈ l, plainChar c = true) :
    l.foldlM RowParser.step { mode := .data, cells := cells, cell := some t }
      = some { mode := .data, cells := cells, cell := some (t ++ l) } := by
  induction l generalizing t with
  | nil => simp [List.foldlM]
  | cons c cs ih =>
    have hc := h c (List.mem_cons_self _ _)
    simp [plainChar] at hc
    obtain ⟨⟨⟨h1, h2⟩, _⟩, h0⟩ := hc
    have ih' := ih (t ++ [c]) (fun d hd => h d (List.mem_cons_of_mem _ hd))
    simp [List.foldlM, RowParser.step, RowParser.dataChar, RowParser.insert, h1, h2, h0, ih']

theorem foldlM_step_open_cell (cells : List String) :
    "                    <td>".data.foldlM RowParser.step
        { mode := .data, cells := cells, cell := none }
      = some { mode := .data, cells := cells, cell := some [] } := by
  have hsplit : "                    <td>".data = List.replicate 20 ' ' ++ ['<', 't', 'd', '>'] := by
    decide
  have hblank : ∀ c ∈ List.replicate 20 ' ', c ≠ '<' ∧ c ≠ '&' := by
    intro c hc
    rw [List.eq_of_mem_replicate hc]
    decide
  rw [hsplit, foldlM_step_append _ (foldlM_step_between_cells cells _ hblank)]
  simp [List.foldlM, RowParser.step, RowParser.dataChar, RowParser.tag, RowParser.closed,
    Char.isAlpha, Char.isUpper, Char.isLower]

theorem foldlM_step_close_cell (cells : List String) (t : List Char) :
    "</td>\n".data.foldlM RowParser.step { mode := .data, cells := cells, cell := some t }
      = some { mode := .data, cells := cells ++ [String.mk t], cell := none } := by
  simp [List.foldlM, RowParser.step, RowParser.dataChar, RowParser.tag, RowParser.closed,
    RowParser.insert, Char.isAlpha, Char.isUpper, Char.isLower]

theorem foldlM_step_cellHTML (cells : List String) (v : String)
    (h : ∀ c ∈ v.data, plainChar c = true) :
    (Static.cellHTML v).data.foldlM RowParser.step { mode := .data, cells := cells, cell := none }
      = some { mode := .data, cells := cells ++ [v], cell := none } := by
  unfold Static.cellHTML
  rw [String.data_append, String.data_append, List.append_assoc,
    foldlM_step_append _ (foldlM_step_open_cell cells),
    foldlM_step_append _ (foldlM_step_in_cell cells [] v.data h), foldlM_step_close_cell]
  rfl

theorem foldlM_step_cells (cells : List String) (vs : List String)
    (h : ∀ v ∈ vs, ∀ c ∈ v.data, plainChar c = true) :
    ((vs.map Static.cellHTML).map String.data).flatten.foldlM RowParser.step
        { mode := .data, cells := cells, cell := none }
      = some { mode := .data, cells := cells ++ vs, cell := none } := by
  induction vs generalizing cells with
  | nil => simp [List.foldlM]
  | cons v vs ih =>
    rw [List.map_cons, List.map_cons, List.flatten_cons,
      foldlM_step_append _ (foldlM_step_cellHTML cells v (h v (List.mem_cons_self _ _))),
      ih (cells ++ [v]) (fun w hw => h w (List.mem_cons_of_mem _ hw)),
      List.append_assoc, List.singleton_append]

theorem plainChar_digitChar (m : Nat) (h : m < 10) : plainChar (Nat.digitChar m) = true := by
  interval_cases m <;> decide

theorem plainChar_toDigitsCore (fuel n : Nat) (ds : List Char)
    (h : ∀ c ∈ ds, plainChar c = true) :
    ∀ c ∈ Nat.toDigitsCore 10 fuel n ds, plainChar c = true := by
  induction fuel generalizing n ds with
  | zero => simpa [Nat.toDigitsCore] using h
  | succ fuel ih =>
    have hd : ∀ c ∈ Nat.digitChar (n % 10) :: ds, plainChar c = true := by
      intro c hc
      rcases List.mem_cons.mp hc with rfl | hc
      · exact plainChar_digitChar _ (Nat.mod_lt _ (by decide))
      · exact h c hc
    unfold Nat.toDigitsCore
    by_cases h0 : n / 10 = 0
    · simpa [h0] using hd
    · simpa [h0] using ih _ _ hd

theorem plainChar_toString (n : Nat) : ∀ c ∈ (toString n).data, plainChar c = true :=
  plainChar_toDigitsCore (n + 1) n [] (fun _ h => absurd h (List.not_mem_nil _))

theorem rowMarkup_no_cr (vs : List String) (h : ∀ v ∈ vs, ∀ c ∈ v.data, plainChar c = true) :
    ∀ c ∈ ("\n" ++ String.join (vs.map Static.cellHTML) ++ "                ").data, c ≠ '\r' := by
  intro c hc
  simp only [String.data_append, String.data_join, List.mem_append, List.mem_flatten,
    List.mem_map, Static.cellHTML] at hc
  rcases hc with (hc | ⟨l, ⟨s, ⟨v, hv, rfl⟩, rfl⟩, hc⟩) | hc
  · have : c = '\n' := by simpa using hc
    subst this
    decide
  · simp only [String.data_append, List.mem_append] at hc
    rcases hc with (hc | hc) | hc
    · have : c = ' ' ∨ c = '<' ∨ c = 't' ∨ c = 'd' ∨ c = '>' := by
        simp at hc
        tauto
      rcases this with rfl | rfl | rfl | rfl | rfl <;> decide
    · have := h v hv c hc
      simp [plainChar] at this
      exact this.1.2
    · have : c = '<' ∨ c = '/' ∨ c = 't' ∨ c = 'd' ∨ c = '>' ∨ c = '\n' := by
        simpa using hc
      rcases this with rfl | rfl | rfl | rfl | rfl | rfl <;> decide
  · have : c = ' ' := by simpa using hc
    subst this
    decide

theorem parseCells_rowMarkup (vs : List String)
    (h : ∀ v ∈ vs, ∀ c ∈ v.data, plainChar c = true) :
    parseCells ("\n" ++ String.join (vs.map Static.cellHTML) ++ "                ") = some vs := by
  unfold parseCells
  rw [normalizeNewlines_of_no_cr _ (rowMarkup_no_cr vs h), String.data_append,
    String.data_append, String.data_join, List.append_assoc,
    foldlM_step_append _ (foldlM_step_between_cells [] "\n".data (by decide)),
    foldlM_step_append _ (foldlM_step_cells [] vs h),
    foldlM_step_between_cells _ "                ".data (by decide)]
  rfl

/-! ## C1: validation failures never reach the network -/

/-- C1. A region input that is empty or made of white space only makes the
region search of either variant issue no request and show 지역명을 입력하세요; a
click on the listing fetch of either variant while the selected complex value
is empty issues no request and shows a message; a click on the export while
the table body has no row issues no request and shows a message.  The reply
argument is never looked at. -/
theorem validation_failure_issues_no_request (B : Browser) :
    (∀ (p : Static.Page) (reply : Reply), (∀ c ∈ p.region.data, isJsWhiteSpace c = true) →
      (Static.searchRegionClick p reply).requests = p.requests ∧
      (Static.searchRegionClick p reply).alerts = p.alerts ++ ["지역명을 입력하세요."]) ∧
    (∀ (p : Vecel.Page) (reply : Reply), (∀ c ∈ p.regionInput.data, isJsWhiteSpace c = true) →
      (Vecel.searchRegionBtnClick B p reply).requests = p.requests ∧
      (Vecel.searchRegionBtnClick B p reply).statusMessage.textContent = "지역명을 입력하세요.") ∧
    (∀ (p : Static.Page) (reply : Reply), p.complex.value = "" →
      (Static.fetchDataClick B p reply).requests = p.requests ∧
      (Static.fetchDataClick B p reply).alerts = p.alerts ++ ["아파트 단지를 선택하세요."]) ∧
    (∀ (p : Vecel.Page) (reply : Reply), p.complexSelect.value = "" →
      (Vecel.startCrawlingBtnClick B p reply).requests = p.requests ∧
      (Vecel.startCrawlingBtnClick B p reply).statusMessage.textContent = "단지를 선택하세요.") ∧
    (∀ (p : Static.Page) (reply : BlobReply), p.rows.length = 0 →
      (Static.downloadExcelClick p reply).requests = p.requests ∧
      (Static.downloadExcelClick p reply).alerts = p.alerts ++ ["다운로드할 데이터가 없습니다."]) := by
  refine ⟨?_, ?_, ?_, ?_, ?_⟩
  · intro p reply h
    simp [Static.searchRegionClick, jsTrim_of_whiteSpace _ h, Static.Page.alert]
  · intro p reply h
    simp [Vecel.searchRegionBtnClick, jsTrim_of_whiteSpace _ h, Vecel.updateStatus]
  · intro p reply h
    simp [Static.fetchDataClick, h, Static.Page.alert]
  · intro p reply h
    simp [Vecel.startCrawlingBtnClick, h, Vecel.updateStatus]
  · intro p reply h
    simp [Static.downloadExcelClick, h, Static.Page.alert]

/-- C1 at concrete inputs: a region of blanks, a tab and a no-break space, a
select showing only the placeholder, and an empty table. -/
theorem validation_failure_issues_no_request_witness :
    (Static.searchRegionClick (Static.freshPage "  \t\u00a0") (.failed "offline")).requests = [] ∧
    (Vecel.searchRegionBtnClick chromium (Vecel.freshPage " \n ") (.failed "offline")).requests
      = [] ∧
    (Static.fetchDataClick chromium (Static.freshPage "") (.failed "offline")).alerts
      = ["아파트 단지를 선택하세요."] ∧
    (Vecel.startCrawlingBtnClick chromium (Vecel.freshPage "") (.failed "offline")).requests
      = [] ∧
    (Static.downloadExcelClick (Static.freshPage "") (.failed "offline")).alerts
      = ["다운로드할 데이터가 없습니다."] := by
  obtain ⟨h1, h2, h3, h4, h5⟩ := validation_failure_issues_no_request chromium
  exact ⟨(h1 (Static.freshPage "  \t\u00a0") _ (by decide)).1,
    (h2 (Vecel.freshPage " \n ") _ (by decide)).1,
    (h3 (Static.freshPage "") _ (by decide)).2,
    (h4 (Vecel.freshPage "") _ (by decide)).1,
    (h5 (Static.freshPage "") _ (by decide)).2⟩

/-! ## C2: the selection list after a successful region search -/

theorem complexOption_of_carries {item : Json} {c : Complex} (h : Carries item c) :
    complexOption item = .ok c.entry := by
  obtain ⟨h1, h2⟩ := h
  simp [complexOption, h1, h2, textOf, Json.text, Complex.entry, bind, Except.bind, pure,
    Except.pure]

theorem forEach_appendComplex {items : List Json} {cs : List Complex}
    (h : List.Forall₂ Carries items cs) (i : Nat) (s : Select) :
    forEach appendComplex items i s
      = ({ s with options := s.options ++ cs.map Complex.entry }, none) := by
  induction h generalizing i s with
  | nil => simp [forEach]
  | cons hc _ ih =>
    simp [forEach, appendComplex, complexOption_of_carries hc, ih, Select.appendChild]

theorem forEach_appendComplex_disabled (items : List Json) (i : Nat) (s : Select) :
    (forEach appendComplex items i s).1.disabled = s.disabled := by
  induction items generalizing i s with
  | nil => rfl
  | cons item items ih =>
    unfold forEach appendComplex
    cases complexOption item with
    | error e => rfl
    | ok o => simpa [Select.appendChild] using ih (i + 1) (s.appendChild o)

theorem Static.searchRegionThen_disabled (p : Static.Page) (data : Json) :
    (Static.searchRegionThen p data).1.complex.disabled = p.complex.disabled := by
  unfold Static.searchRegionThen
  split
  · rfl
  · split
    · rfl
    · split
      · rfl
      · rename_i complexes _
        simp only [callForEach]
        split
        · rfl
        · rfl
        · exact forEach_appendComplex_disabled _ 0 _
        · rfl

theorem Static.fetchDataThen_complex (B : Browser) (p : Static.Page) (data : Json) :
    (Static.fetchDataThen B p data).1.complex = p.complex := by
  unfold Static.fetchDataThen
  split
  · rfl
  · split
    · rfl
    · split <;> rfl

/-- The modal script never writes the `disabled` flag of `#complex`: none of
its three handlers changes it, whatever the reply.  The selector is therefore
as the page shipped it, and a page that shipped it disabled could not be
used at all. -/
theorem Static.complex_disabled_unchanged (B : Browser) (p : Static.Page) :
    (∀ reply, (Static.searchRegionClick p reply).complex.disabled = p.complex.disabled) ∧
    (∀ reply, (Static.fetchDataClick B p reply).complex.disabled = p.complex.disabled) ∧
    (∀ reply, (Static.downloadExcelClick p reply).complex.disabled = p.complex.disabled) := by
  refine ⟨?_, ?_, ?_⟩
  · intro reply
    unfold Static.searchRegionClick
    simp only
    split
    · rfl
    · rcases reply with m | ⟨ok, m | data⟩
      · rfl
      · rfl
      · have h := Static.searchRegionThen_disabled
          { p with requests := p.requests ++ [.postForm "/search" [("keyword", jsTrim p.region)]] }
          data
        simp only at h ⊢
        rcases hthen : Static.searchRegionThen _ data with ⟨p', _ | e⟩
        · rw [hthen] at h
          simpa using h
        · rw [hthen] at h
          simpa [Static.searchRegionCatch, Static.Page.alert] using h
  · intro reply
    unfold Static.fetchDataClick
    split
    · rfl
    · rcases reply with m | ⟨ok, m | data⟩
      · rfl
      · rfl
      · have h := Static.fetchDataThen_complex B
          { p with
            loadingModal := p.loadingModal ++ [.showCall]
            requests := p.requests ++ [.postForm "/fetch_data"
              [("complex_no", p.complex.value), ("trade_type", p.tradeType)]] } data
        simp only at h ⊢
        rcases hthen : Static.fetchDataThen B _ data with ⟨p', _ | e⟩
        · rw [hthen] at h
          simp only at h
          simp [h]
        · rw [hthen] at h
          simp only at h
          simp [Static.fetchDataCatch, Static.Page.alert, h]
  · intro reply
    unfold Static.downloadExcelClick
    split
    · rfl
    · split
      · rfl
      · rcases reply with m | ⟨_ | _, blob⟩ <;> rfl

/-- C2. After a successful region search that returned the complexes `cs`,
the selection list shows, behind the placeholder prompt that both scripts
write first, exactly one entry per complex, in response order, the entry of a
complex having its `complexNo` as value and `complexName (complexNo)` as
label, and the selector is enabled.  The async variant (for at least one
complex) enables it itself; the modal variant never writes the flag
(`Static.complex_disabled_unchanged`), so there the selector is enabled as
the page shipped it. -/
theorem region_search_fills_selection_list (B : Browser) (items : List Json)
    (cs : List Complex) (hcs : List.Forall₂ Carries items cs) :
    (∀ (p : Static.Page) (ok : Bool) (data : Json) (err : Option Json),
      p.complex.disabled = false → jsTrim p.region ≠ "" →
      member data "error" = .ok err → truthy err = false →
      member data "complexes" = .ok (some (.arr items)) →
      (Static.searchRegionClick p (.response ok (.parsed data))).complex.options
        = placeholderOption :: cs.map Complex.entry ∧
      (Static.searchRegionClick p (.response ok (.parsed data))).complex.disabled = false) ∧
    (∀ (p : Vecel.Page), jsTrim p.regionInput ≠ "" → items ≠ [] →
      (Vecel.searchRegionBtnClick B p (.response true (.parsed (.arr items)))).complexSelect.options
        = placeholderOption :: cs.map Complex.entry ∧
      (Vecel.searchRegionBtnClick B p (.response true (.parsed (.arr items)))).complexSelect.disabled
        = false) := by
  constructor
  · intro p ok data err henabled hregion herr hfalsy hcomplexes
    simp [Static.searchRegionClick, hregion, Static.searchRegionThen, herr, hfalsy, hcomplexes,
      callForEach, forEach_appendComplex hcs, Select.reset, henabled]
  · intro p hregion hne
    have hpos : (0 : Int) < (items.length : Int) := by
      have : 0 < items.length := List.length_pos.mpr hne
      exact_mod_cast this
    simp [Vecel.searchRegionBtnClick, hregion, Vecel.searchRegionTry, member, gtZero, hpos,
      callForEach, forEach_appendComplex hcs, Select.reset, Vecel.updateStatus]

/-- C2 on the scenario of the specification: the search for Gangnam returns
Tower A, number 123, and the selector shows the one entry `Tower A (123)`
behind its prompt, enabled, in both variants. -/
theorem region_search_fills_selection_list_witness :
    ((Static.searchRegionClick (Static.freshPage "Gangnam") (.response true (.parsed
      (.obj [("complexes", .arr [.obj [("complexNo", .str "123"),
        ("complexName", .str "Tower A")]])])))).complex.options
      = [placeholderOption, { value := "123", text := "Tower A (123)" }] ∧
    (Static.searchRegionClick (Static.freshPage "Gangnam") (.response true (.parsed
      (.obj [("complexes", .arr [.obj [("complexNo", .str "123"),
        ("complexName", .str "Tower A")]])])))).complex.disabled = false) ∧
    ((Vecel.searchRegionBtnClick chromium (Vecel.freshPage "Gangnam") (.response true (.parsed
      (.arr [.obj [("complexNo", .str "123"),
        ("complexName", .str "Tower A")]])))).complexSelect.options
      = [placeholderOption, { value := "123", text := "Tower A (123)" }] ∧
    (Vecel.searchRegionBtnClick chromium (Vecel.freshPage "Gangnam") (.response true (.parsed
      (.arr [.obj [("complexNo", .str "123"),
        ("complexName", .str "Tower A")]])))).complexSelect.disabled = false) := by
  have h := region_search_fills_selection_list chromium
    [.obj [("complexNo", .str "123"), ("complexName", .str "Tower A")]]
    [{ complexNo := "123", complexName := "Tower A" }]
    (List.Forall₂.cons ⟨by rfl, by rfl⟩ List.Forall₂.nil)
  exact ⟨h.1 (Static.freshPage "Gangnam") true _ none (by decide) (by decide) (by rfl) (by rfl)
      (by rfl),
    h.2 (Vecel.freshPage "Gangnam") (by decide) (by simp)⟩

/-! ## C3: the table after a successful listing fetch -/

theorem textContentOf_lookup (r : Listing) (key : String) :
    textContentOf ((r.lookup key).map Json.str) = r.cell key := by
  unfold Listing.cell
  cases r.lookup key <;> simp [textContentOf, Json.text]

theorem Vecel.fillCells_of_carries (item : Json) (r : Listing) (keys : List String)
    (h : ∀ key ∈ keys, member item key = .ok ((r.lookup key).map Json.str)) (row : Row) :
    Vecel.fillCells item keys row = (row ++ keys.map r.cell, none) := by
  induction keys generalizing row with
  | nil => simp [Vecel.fillCells]
  | cons key keys ih =>
    simp [Vecel.fillCells, h key (List.mem_cons_self _ _), textContentOf_lookup,
      ih (fun k hk => h k (List.mem_cons_of_mem _ hk))]

theorem Vecel.forEach_insertListing {items : List Json} {rs : List Listing}
    (h : List.Forall₂ CarriesListing items rs) (i : Nat) (rows : List Row) :
    forEach Vecel.insertListing items i rows
      = (rows ++ (rs.enumFrom i).map (fun ir => ir.2.row (ir.1 + 1)), none) := by
  induction h generalizing i rows with
  | nil => simp [forEach]
  | @cons item r items rs hc _ ih =>
    simp [forEach, Vecel.insertListing, Vecel.fillCells_of_carries item r listingFields hc, ih,
      List.enumFrom_cons, Listing.row]

/-- The table of the async variant after a successful listing fetch, for
records with any string values: one row per record, in response order,
numbered from one, each field showing its value or the empty string. -/
theorem Vecel.startCrawlingBtnClick_rows (B : Browser) (p : Vecel.Page) (items : List Json)
    (rs : List Listing) (hvalue : p.complexSelect.value ≠ "")
    (hrs : List.Forall₂ CarriesListing items rs) :
    (Vecel.startCrawlingBtnClick B p (.response true (.parsed (.arr items)))).dataTableBody
      = rs.enum.map (fun ir => ir.2.row (ir.1 + 1)) := by
  cases hrs with
  | nil =>
    simp [Vecel.startCrawlingBtnClick, hvalue, Vecel.startCrawlingTry, member, gtZero,
      Vecel.updateStatus]
  | @cons item r items rs hc hrest =>
    have hpos : (0 : Int) < (items.length : Int) + 1 := by omega
    simp [Vecel.startCrawlingBtnClick, hvalue, Vecel.startCrawlingTry, member, gtZero, hpos,
      callForEach, Vecel.forEach_insertListing (List.Forall₂.cons hc hrest), Vecel.updateStatus,
      List.enum]

/-- The scenario of the specification: the record with an apartment name and
a price gives the row `1 | Tower A | | | | 10억 | | | | | |` in both variants. -/
theorem scenario_row :
    (Static.fetchDataClick chromium Static.towerPage (.response true (.parsed
      (.obj [("data", .arr [.obj [("아파트명", .str "Tower A"),
        ("거래가격", .str "10억")]])])))).rows
      = [["1", "Tower A", "", "", "", "10억", "", "", "", "", "", ""]] ∧
    (Vecel.startCrawlingBtnClick chromium Vecel.towerPage (.response true (.parsed
      (.arr [.obj [("아파트명", .str "Tower A"), ("거래가격", .str "10억")]])))).dataTableBody
      = [["1", "Tower A", "", "", "", "10억", "", "", "", "", "", ""]] := by
  constructor <;> decide

/-- C3 at a record whose apartment name holds a character reference.  The
modal variant interpolates the value into the markup of the row, so the cell
shows `A&B` where the record says `A&amp;B`; the async variant stores the
value through `textContent` and shows it unchanged. -/
theorem modal_row_shows_markup_decoded :
    (Static.fetchDataClick chromium Static.towerPage (.response true (.parsed
      (.obj [("data", .arr [.obj [("아파트명", .str "A&amp;B")]])])))).rows
      = [["1", "A&B", "", "", "", "", "", "", "", "", "", ""]] ∧
    (Vecel.startCrawlingBtnClick chromium Vecel.towerPage (.response true (.parsed
      (.arr [.obj [("아파트명", .str "A&amp;B")]])))).dataTableBody
      = [["1", "A&amp;B", "", "", "", "", "", "", "", "", "", ""]] := by
  constructor <;> decide

/-! ## C4: the busy indicator -/

theorem Static.fetchDataThen_loadingModal (B : Browser) (p : Static.Page) (data : Json) :
    (Static.fetchDataThen B p data).1.loadingModal = p.loadingModal ++ [.hideCall] := by
  unfold Static.fetchDataThen
  cases member data "error" with
  | error e => rfl
  | ok err =>
    by_cases h : truthy err = true
    · simp [h, Static.Page.alert]
    · cases member data "data" <;> simp [h]

/-- C4. Whatever the network answers to a listing fetch that passed
validation (a rejected request, an unparsable body, any parsed body under any
status, rendering included), the async variant ends with the start button
enabled, and the modal variant has called `hide` on the loading modal after
its `show`: the calls it adds are one `show` followed by one or more `hide`. -/
theorem busy_indicator_cleared (B : Browser) (reply : Reply) :
    (∀ p : Vecel.Page, p.complexSelect.value ≠ "" →
      (Vecel.startCrawlingBtnClick B p reply).startCrawlingBtnDisabled = false) ∧
    (∀ p : Static.Page, p.complex.value ≠ "" →
      ∃ k, 0 < k ∧ (Static.fetchDataClick B p reply).loadingModal
        = p.loadingModal ++ Static.ModalCall.showCall :: List.replicate k .hideCall) := by
  constructor
  · intro p h
    simp [Vecel.startCrawlingBtnClick, h]
  · intro p h
    unfold Static.fetchDataClick
    rw [if_neg h]
    rcases reply with m | ⟨ok, m | data⟩
    · exact ⟨1, by decide, by simp [Static.fetchDataCatch, Static.Page.alert]⟩
    · exact ⟨1, by decide, by simp [Static.fetchDataCatch, Static.Page.alert]⟩
    · have hlog := Static.fetchDataThen_loadingModal B
        { p with
          loadingModal := p.loadingModal ++ [.showCall]
          requests := p.requests ++ [.postForm "/fetch_data"
            [("complex_no", p.complex.value), ("trade_type", p.tradeType)]] } data
      simp only at hlog ⊢
      rcases hthen : Static.fetchDataThen B _ data with ⟨p', _ | e⟩
      · rw [hthen] at hlog
        exact ⟨1, by decide, by simpa using hlog⟩
      · rw [hthen] at hlog
        refine ⟨2, by decide, ?_⟩
        simp only at hlog
        simp [Static.fetchDataCatch, Static.Page.alert, hlog, List.replicate]

/-- C4 at concrete replies: a body whose rendering throws (no `data` member)
in the modal variant, a rejected request in the async variant. -/
theorem busy_indicator_cleared_witness :
    (Vecel.startCrawlingBtnClick chromium Vecel.towerPage
      (.failed "Failed to fetch")).startCrawlingBtnDisabled = false ∧
    ∃ k, 0 < k ∧ (Static.fetchDataClick chromium Static.towerPage
      (.response true (.parsed (.obj [])))).loadingModal
        = Static.towerPage.loadingModal ++ Static.ModalCall.showCall :: List.replicate k .hideCall :=
  ⟨(busy_indicator_cleared chromium (.failed "Failed to fetch")).1 Vecel.towerPage (by decide),
    (busy_indicator_cleared chromium (.response true (.parsed (.obj [])))).2 Static.towerPage
      (by decide)⟩

/-! ## C5: what a failed or errored response leaves behind -/

theorem Vecel.searchRegionTry_of_errored (B : Browser) (p : Vecel.Page) (reply : Reply)
    (h : Vecel.errored reply = true) :
    (Vecel.searchRegionTry B p reply).1.complexSelect = p.complexSelect ∧
    (Vecel.searchRegionTry B p reply).1.dataTableBody = p.dataTableBody := by
  rcases reply with m | ⟨ok, m | data⟩
  · simp [Vecel.searchRegionTry]
  · simp [Vecel.searchRegionTry]
  · have hok : ok = false := by simpa [Vecel.errored] using h
    subst hok
    simp only [Vecel.searchRegionTry]
    split <;> simp [Vecel.updateStatus]

theorem Vecel.startCrawlingTry_of_errored (B : Browser) (p : Vecel.Page) (reply : Reply)
    (h : Vecel.errored reply = true) :
    (Vecel.startCrawlingTry B p reply).1.complexSelect = p.complexSelect ∧
    (Vecel.startCrawlingTry B p reply).1.dataTableBody = p.dataTableBody := by
  rcases reply with m | ⟨ok, m | data⟩
  · simp [Vecel.startCrawlingTry]
  · simp [Vecel.startCrawlingTry]
  · have hok : ok = false := by simpa [Vecel.errored] using h
    subst hok
    simp only [Vecel.startCrawlingTry]
    split <;> simp [Vecel.updateStatus]

/-- C5, as the code has it.  In the modal variant a failed or errored reply
(rejected request, unparsable body, body with a truthy `error`) to either
action leaves the selection list and the table rows exactly as they were.  In
the async variant the handlers clear before they ask: after a failed region
search the table rows are as before and the selection list is the placeholder
alone, disabled; after a failed listing fetch the selection list is as before
and the table body is empty. -/
theorem failed_reply_state (B : Browser) :
    (∀ (p : Static.Page) (reply : Reply), Static.errored reply = true →
      (Static.searchRegionClick p reply).complex = p.complex ∧
      (Static.searchRegionClick p reply).rows = p.rows ∧
      (Static.fetchDataClick B p reply).complex = p.complex ∧
      (Static.fetchDataClick B p reply).rows = p.rows) ∧
    (∀ (p : Vecel.Page) (reply : Reply), Vecel.errored reply = true → jsTrim p.regionInput ≠ "" →
      (Vecel.searchRegionBtnClick B p reply).dataTableBody = p.dataTableBody ∧
      (Vecel.searchRegionBtnClick B p reply).complexSelect
        = { options := [placeholderOption], selectedIndex := 0, disabled := true }) ∧
    (∀ (p : Vecel.Page) (reply : Reply), Vecel.errored reply = true → p.complexSelect.value ≠ "" →
      (Vecel.startCrawlingBtnClick B p reply).complexSelect = p.complexSelect ∧
      (Vecel.startCrawlingBtnClick B p reply).dataTableBody = []) := by
  refine ⟨?_, ?_, ?_⟩
  · intro p reply h
    rcases reply with m | ⟨ok, m | data⟩
    · refine ⟨?_, ?_, ?_, ?_⟩ <;>
        simp only [Static.searchRegionClick, Static.fetchDataClick] <;> split <;>
        simp [Static.searchRegionCatch, Static.fetchDataCatch, Static.Page.alert]
    · refine ⟨?_, ?_, ?_, ?_⟩ <;>
        simp only [Static.searchRegionClick, Static.fetchDataClick] <;> split <;>
        simp [Static.searchRegionCatch, Static.fetchDataCatch, Static.Page.alert]
    · have h' : (match member data "error" with
          | .error _ => true
          | .ok err => truthy err) = true := h
      refine ⟨?_, ?_, ?_, ?_⟩ <;>
        simp only [Static.searchRegionClick, Static.fetchDataClick, Static.searchRegionThen,
          Static.fetchDataThen] <;> split <;>
        simp [Static.Page.alert] <;>
        cases hm : member data "error" <;> rw [hm] at h' <;>
        simp_all [Static.searchRegionCatch, Static.fetchDataCatch, Static.Page.alert]
  · intro p reply h hregion
    simp only [Vecel.searchRegionBtnClick, if_neg hregion]
    have h2 := Vecel.searchRegionTry_of_errored B
      { Vecel.updateStatus p "지역 검색 중..." false with
        complexSelect := { (Vecel.updateStatus p "지역 검색 중..." false).complexSelect.reset with
          disabled := true }
        complexesData := .arr []
        requests := p.requests ++ [.get ("/api/search_region?keyword=" ++ jsTrim p.regionInput)] }
      reply h
    revert h2
    simp only [Vecel.updateStatus, Select.reset]
    rcases Vecel.searchRegionTry B _ reply with ⟨p', _ | e⟩ <;>
      simp [Vecel.updateStatus] <;> intro h1 h2 <;> simp [h1, h2]
  · intro p reply h hvalue
    simp only [Vecel.startCrawlingBtnClick, if_neg hvalue]
    have h2 := Vecel.startCrawlingTry_of_errored B
      { Vecel.updateStatus p "데이터 수집 시작..." false with
        startCrawlingBtnDisabled := true
        dataTableBody := []
        requests := p.requests ++ [.get ("/api/get_real_estate_data?complex_no=" ++
          p.complexSelect.value ++ "&trade_type=" ++ p.tradeTypeSelect)] }
      reply h
    revert h2
    simp only [Vecel.updateStatus]
    rcases Vecel.startCrawlingTry B _ reply with ⟨p', _ | e⟩ <;>
      simp [Vecel.updateStatus]

/-- C5 at concrete failures of each kind. -/
theorem failed_reply_state_witness :
    (Static.fetchDataClick chromium Static.towerPage
      (.response false (.parsed (.obj [("error", .str "서버 오류")])))).rows
      = Static.towerPage.rows ∧
    (Vecel.searchRegionBtnClick chromium Vecel.towerPage (.failed "Failed to fetch")).dataTableBody
      = Vecel.towerPage.dataTableBody ∧
    (Vecel.startCrawlingBtnClick chromium Vecel.towerPage
      (.response false (.parsed (.obj [("error", .str "서버 오류")])))).dataTableBody = [] :=
  ⟨((failed_reply_state chromium).1 Static.towerPage _ (by decide)).2.2.2,
    ((failed_reply_state chromium).2.1 Vecel.towerPage _ (by decide) (by decide)).1,
    ((failed_reply_state chromium).2.2 Vecel.towerPage _ (by decide) (by decide)).2⟩

/-- C5 as stated fails in the async variant: a region search whose request is
rejected leaves the placeholder alone in a disabled selector where the entry
of Tower A was, and a listing fetch answered with status 500 leaves the table
empty where it had a row. -/
theorem async_failure_clears_prior_state :
    (Vecel.searchRegionBtnClick chromium Vecel.towerPage (.failed "Failed to fetch")).complexSelect
      = { options := [placeholderOption], selectedIndex := 0, disabled := true } ∧
    Vecel.towerPage.complexSelect.options
      = [placeholderOption, { value := "123", text := "Tower A (123)" }] ∧
    (Vecel.startCrawlingBtnClick chromium Vecel.towerPage
      (.response false (.parsed (.obj [("error", .str "서버 오류")])))).dataTableBody = [] ∧
    Vecel.towerPage.dataTableBody
      = [["1", "Tower A", "", "", "", "10억", "", "", "", "", "", ""]] := by
  decide

/-! ## C6: a region search that finds no complex -/

/-- C6, as the code has it.  After a successful region search that returned
no complex, the async variant has the selector disabled with the placeholder
as its only option and shows 해당 지역에 단지가 없습니다; the modal variant has
the placeholder as the only option of the selector and shows no message. -/
theorem empty_region_search (B : Browser) :
    (∀ (p : Vecel.Page), jsTrim p.regionInput ≠ "" →
      (Vecel.searchRegionBtnClick B p (.response true (.parsed (.arr [])))).complexSelect
        = { options := [placeholderOption], selectedIndex := 0, disabled := true } ∧
      (Vecel.searchRegionBtnClick B p (.response true (.parsed (.arr [])))).statusMessage.textContent
        = "해당 지역에 단지가 없습니다.") ∧
    (∀ (p : Static.Page) (ok : Bool) (data : Json) (err : Option Json),
      jsTrim p.region ≠ "" → member data "error" = .ok err → truthy err = false →
      member data "complexes" = .ok (some (.arr [])) →
      (Static.searchRegionClick p (.response ok (.parsed data))).complex.options
        = [placeholderOption] ∧
      (Static.searchRegionClick p (.response ok (.parsed data))).alerts = p.alerts) := by
  constructor
  · intro p hregion
    simp [Vecel.searchRegionBtnClick, hregion, Vecel.searchRegionTry, member, gtZero,
      Select.reset, Vecel.updateStatus]
  · intro p ok data err hregion herr hfalsy hcomplexes
    simp [Static.searchRegionClick, hregion, Static.searchRegionThen, herr, hfalsy, hcomplexes,
      callForEach, forEach, Select.reset]

/-- C6 at a search for a region without complexes. -/
theorem empty_region_search_witness :
    (Vecel.searchRegionBtnClick chromium (Vecel.freshPage "Dokdo")
      (.response true (.parsed (.arr [])))).statusMessage.textContent
        = "해당 지역에 단지가 없습니다." ∧
    (Static.searchRegionClick (Static.freshPage "Dokdo")
      (.response true (.parsed (.obj [("complexes", .arr [])])))).complex.options
        = [placeholderOption] :=
  ⟨((empty_region_search chromium).1 (Vecel.freshPage "Dokdo") (by decide)).2,
    ((empty_region_search chromium).2 (Static.freshPage "Dokdo") true _ none (by decide)
      (by rfl) (by rfl) (by rfl)).1⟩

/-- C6 as stated fails in the modal variant: a search that returns an empty
list of complexes ends without any alert, and without any other request. -/
theorem modal_empty_search_shows_no_message :
    (Static.searchRegionClick (Static.freshPage "Dokdo")
      (.response true (.parsed (.obj [("complexes", .arr [])])))).alerts = [] ∧
    (Static.searchRegionClick (Static.freshPage "Dokdo")
      (.response true (.parsed (.obj [("complexes", .arr [])])))).complex.disabled = false := by
  decide

/-! ## C7: the error message of the server -/

/-- C7, as the code has it.  For a reply whose body has the non-empty string
`m` as its `error` member, the modal variant alerts exactly `m` under any
status, for the region search and the listing fetch alike; the async variant,
when the status is not 2xx, shows `m` behind the prefix `오류: `. -/
theorem server_error_message (B : Browser) (data : Json) (m : String)
    (hm : m ≠ "") (herror : member data "error" = .ok (some (.str m))) :
    (∀ (p : Static.Page) (ok : Bool), jsTrim p.region ≠ "" →
      (Static.searchRegionClick p (.response ok (.parsed data))).alerts = p.alerts ++ [m]) ∧
    (∀ (p : Static.Page) (ok : Bool), p.complex.value ≠ "" →
      (Static.fetchDataClick B p (.response ok (.parsed data))).alerts = p.alerts ++ [m]) ∧
    (∀ (p : Vecel.Page), jsTrim p.regionInput ≠ "" →
      (Vecel.searchRegionBtnClick B p (.response false (.parsed data))).statusMessage.textContent
        = "오류: " ++ m) ∧
    (∀ (p : Vecel.Page), p.complexSelect.value ≠ "" →
      (Vecel.startCrawlingBtnClick B p (.response false (.parsed data))).statusMessage.textContent
        = "오류: " ++ m) := by
  have htruthy : truthy (some (.str m)) = true := by simp [truthy, hm]
  refine ⟨?_, ?_, ?_, ?_⟩
  · intro p ok hregion
    simp [Static.searchRegionClick, hregion, Static.searchRegionThen, herror, htruthy,
      Static.Page.alert, textOf, Json.text]
  · intro p ok hvalue
    simp [Static.fetchDataClick, hvalue, Static.fetchDataThen, herror, htruthy,
      Static.Page.alert, textOf, Json.text]
  · intro p hregion
    simp [Vecel.searchRegionBtnClick, hregion, Vecel.searchRegionTry, herror, htruthy,
      Vecel.updateStatus, textOf, Json.text]
  · intro p hvalue
    simp [Vecel.startCrawlingBtnClick, hvalue, Vecel.startCrawlingTry, herror, htruthy,
      Vecel.updateStatus, textOf, Json.text]

/-- C7 at the body `{"error": "서버 오류"}`. -/
theorem server_error_message_witness :
    (Static.fetchDataClick chromium Static.towerPage
      (.response true (.parsed (.obj [("error", .str "서버 오류")])))).alerts = ["서버 오류"] ∧
    (Vecel.startCrawlingBtnClick chromium Vecel.towerPage
      (.response false (.parsed (.obj [("error", .str "서버 오류")])))).statusMessage.textContent
        = "오류: 서버 오류" :=
  ⟨(server_error_message chromium (.obj [("error", .str "서버 오류")]) "서버 오류" (by decide)
      (by rfl)).2.1 Static.towerPage true (by decide),
    (server_error_message chromium (.obj [("error", .str "서버 오류")]) "서버 오류" (by decide)
      (by rfl)).2.2.2 Vecel.towerPage (by decide)⟩

/-- C7 as stated fails in the async variant: under status 500 the message
shown for the body `{"error": "서버 오류"}` is `오류: 서버 오류`, not the message
of the server alone. -/
theorem async_error_message_is_prefixed :
    (Vecel.searchRegionBtnClick chromium (Vecel.freshPage "Gangnam")
      (.response false (.parsed (.obj [("error", .str "서버 오류")])))).statusMessage.textContent
        = "오류: 서버 오류" ∧
    "오류: 서버 오류" ≠ "서버 오류" := by
  decide

/-! ## C8: the export reply -/

theorem Static.mapM_rowObject (rows : List Row) (h : ∀ row ∈ rows, 12 ≤ row.length) :
    rows.mapM Static.rowObject
      = some (rows.map (fun row => Json.obj (Static.exportKeys.zip (row.map Json.str)))) := by
  induction rows with
  | nil => rfl
  | cons row rows ih =>
    have h1 : 12 ≤ row.length := h row (List.mem_cons_self _ _)
    have h2 := ih (fun r hr => h r (List.mem_cons_of_mem _ hr))
    rw [List.mapM_cons, h2, Static.rowObject, if_pos h1]
    rfl

/-- C8. An export that reaches the network (the table has a row, and every
row has its twelve cells, so the row objects can be built) issues one request
to `/download_excel`.  When the reply has a status that is not 2xx, the handler
alerts 엑셀 다운로드 중 오류가 발생했습니다 and downloads nothing: no object URL
is created and no anchor is clicked.  When the reply is 2xx, the handler
clicks exactly one anchor, whose `download` is `real_estate_data.xlsx`, and
alerts nothing. -/
theorem export_reply (p : Static.Page) (blob : String) (hrows : p.rows ≠ [])
    (hcells : ∀ row ∈ p.rows, 12 ≤ row.length) :
    (∃ body, ∀ ok, (Static.downloadExcelClick p (.response ok blob)).requests
      = p.requests ++ [.postJson "/download_excel" body]) ∧
    ((Static.downloadExcelClick p (.response false blob)).alerts
        = p.alerts ++ ["엑셀 다운로드 중 오류가 발생했습니다."] ∧
      (Static.downloadExcelClick p (.response false blob)).objectURLs = p.objectURLs ∧
      (Static.downloadExcelClick p (.response false blob)).downloads = p.downloads) ∧
    ((Static.downloadExcelClick p (.response true blob)).downloads
        = p.downloads ++ [{ blob := blob, download := "real_estate_data.xlsx" }] ∧
      (Static.downloadExcelClick p (.response true blob)).alerts = p.alerts) := by
  have hlen : ¬ p.rows.length = 0 := by
    simpa [List.length_eq_zero] using hrows
  refine ⟨⟨Json.stringify (.obj [("data", .arr (p.rows.map
    (fun row => Json.obj (Static.exportKeys.zip (row.map Json.str)))))]), fun ok => ?_⟩, ?_, ?_⟩
  · unfold Static.downloadExcelClick
    rw [if_neg hlen, Static.mapM_rowObject p.rows hcells]
    cases ok <;> simp [Static.downloadExcelCatch, Static.Page.alert]
  · unfold Static.downloadExcelClick
    rw [if_neg hlen, Static.mapM_rowObject p.rows hcells]
    simp [Static.downloadExcelCatch, Static.Page.alert]
  · unfold Static.downloadExcelClick
    rw [if_neg hlen, Static.mapM_rowObject p.rows hcells]
    simp

/-- C8 on the one-row table of the scenario. -/
theorem export_reply_witness :
    (Static.downloadExcelClick Static.towerPage (.response false "")).downloads = [] ∧
    (Static.downloadExcelClick Static.towerPage (.response true "PK")).downloads
      = [{ blob := "PK", download := "real_estate_data.xlsx" }] :=
  ⟨(export_reply Static.towerPage "" (by decide) (by decide)).2.1.2.2,
    (export_reply Static.towerPage "PK" (by decide) (by decide)).2.2.1⟩

/-! ## C9: the export reads back what the fetch rendered -/

theorem orEmpty_lookup (r : Listing) (key : String) :
    orEmpty ((r.lookup key).map Json.str) = r.cell key := by
  unfold Listing.cell orEmpty
  cases r.lookup key with
  | none => simp [truthy]
  | some v =>
    by_cases hv : v = "" <;> simp [truthy, textOf, Json.text, hv]

theorem mapM_orEmpty (item : Json) (r : Listing) (keys : List String)
    (h : ∀ key ∈ keys, member item key = .ok ((r.lookup key).map Json.str)) :
    keys.mapM (fun key => do pure (orEmpty (← member item key)))
      = (Except.ok (keys.map r.cell) : Except Thrown (List String)) := by
  induction keys with
  | nil => rfl
  | cons key keys ih =>
    rw [List.mapM_cons, h key (List.mem_cons_self _ _),
      ih (fun k hk => h k (List.mem_cons_of_mem _ hk))]
    simp [orEmpty_lookup, bind, Except.bind, pure, Except.pure]

theorem Static.rowHTML_of_carries {item : Json} {r : Listing} (h : CarriesListing item r)
    (i : Nat) :
    Static.rowHTML i item = .ok ("\n" ++ String.join ((r.row (i + 1)).map Static.cellHTML) ++
      "                ") := by
  unfold Static.rowHTML
  rw [mapM_orEmpty item r listingFields h]
  rfl

theorem Listing.row_plain {r : Listing} (h : r.plain = true) (i : Nat) :
    ∀ v ∈ r.row i, ∀ c ∈ v.data, plainChar c = true := by
  intro v hv
  rcases List.mem_cons.mp hv with rfl | hv
  · exact plainChar_toString i
  · obtain ⟨key, hkey, rfl⟩ := List.mem_map.mp hv
    have := List.all_eq_true.mp h key hkey
    exact fun c hc => List.all_eq_true.mp this c hc

theorem Static.forEach_appendRow (B : Browser) {items : List Json} {rs : List Listing}
    (h : List.Forall₂ CarriesListing items rs) (hplain : ∀ r ∈ rs, r.plain = true)
    (i : Nat) (rows : List Row) :
    forEach (Static.appendRow B) items i rows
      = (rows ++ (rs.enumFrom i).map (fun ir => ir.2.row (ir.1 + 1)), none) := by
  induction h generalizing i rows with
  | nil => simp [forEach]
  | @cons item r items rs hc _ ih =>
    have hr : r.plain = true := hplain r (List.mem_cons_self _ _)
    have hrow : Static.appendRow B item i rows = (rows ++ [r.row (i + 1)], none) := by
      simp [Static.appendRow, Static.rowHTML_of_carries hc, rowOfInnerHTML,
        parseCells_rowMarkup _ (Listing.row_plain hr (i + 1))]
    simp [forEach, hrow, ih (fun r' hr' => hplain r' (List.mem_cons_of_mem _ hr')),
      List.enumFrom_cons]

theorem zip_map_self {α β : Type} (l : List α) (f : α → β) :
    l.zip (l.map f) = l.map (fun k => (k, f k)) := by
  induction l with
  | nil => rfl
  | cons a l ih => simp [ih]

theorem Static.rowObject_row (r : Listing) (i : Nat) :
    Static.rowObject (r.row i) = some (r.exported i) := by
  have hlen : 12 ≤ (r.row i).length := by simp [Listing.row, listingFields]
  rw [Static.rowObject, if_pos hlen]
  simp [Static.exportKeys, Listing.row, Listing.exported, zip_map_self]

theorem Static.mapM_rowObject_rows (rs : List Listing) (i : Nat) :
    ((rs.enumFrom i).map (fun ir => ir.2.row (ir.1 + 1))).mapM Static.rowObject
      = some ((rs.enumFrom i).map (fun ir => ir.2.exported (ir.1 + 1))) := by
  induction rs generalizing i with
  | nil => rfl
  | cons r rs ih =>
    rw [List.enumFrom_cons, List.map_cons, List.mapM_cons, Static.rowObject_row, ih (i + 1)]
    rfl

/-- The table of the modal variant after a successful listing fetch whose
records hold plain text: one row per record, in response order, numbered from
one, each field showing its value or the empty string. -/
theorem Static.fetchDataClick_rows (B : Browser) (p : Static.Page) (ok : Bool) (data : Json)
    (err : Option Json) (items : List Json) (rs : List Listing)
    (hvalue : p.complex.value ≠ "") (herr : member data "error" = .ok err)
    (hfalsy : truthy err = false) (hdata : member data "data" = .ok (some (.arr items)))
    (hrs : List.Forall₂ CarriesListing items rs) (hplain : ∀ r ∈ rs, r.plain = true) :
    Static.fetchDataClick B p (.response ok (.parsed data))
      = { p with
          loadingModal := p.loadingModal ++ [.showCall, .hideCall]
          requests := p.requests ++ [.postForm "/fetch_data"
            [("complex_no", p.complex.value), ("trade_type", p.tradeType)]]
          rows := rs.enum.map (fun ir => ir.2.row (ir.1 + 1)) } := by
  simp [Static.fetchDataClick, hvalue, Static.fetchDataThen, herr, hfalsy, hdata, callForEach,
    Static.forEach_appendRow B hrs hplain, List.enum]

/-- C9, as the code has it.  In the modal variant, after a successful listing
fetch of at least one record whose values hold no `<`, no `&`, no carriage
return and no U+0000, a click on the export posts to `/download_excel` the
JSON text of `{data: rows}`, where `rows` has one object per record in table
order, and the object of the `i`-th record has the twelve keys 순번, 아파트명,
거래유형, 층수, 월세, 거래가격, 면적(m²), 방향, 등록일, 동, 중개사무소, 특징 in
this order, 순번 being the decimal text of `i` and every other key the value
of the record for that field, or the empty string where the record lacks it. -/
theorem export_undoes_rendering (B : Browser) (p : Static.Page) (ok : Bool) (data : Json)
    (err : Option Json) (items : List Json) (rs : List Listing) (reply : BlobReply)
    (hvalue : p.complex.value ≠ "") (herr : member data "error" = .ok err)
    (hfalsy : truthy err = false) (hdata : member data "data" = .ok (some (.arr items)))
    (hrs : List.Forall₂ CarriesListing items rs) (hne : rs ≠ [])
    (hplain : ∀ r ∈ rs, r.plain = true) :
    (Static.downloadExcelClick (Static.fetchDataClick B p (.response ok (.parsed data)))
        reply).requests
      = p.requests ++
        [.postForm "/fetch_data" [("complex_no", p.complex.value), ("trade_type", p.tradeType)],
         .postJson "/download_excel" (Json.stringify
          (.obj [("data", .arr (rs.enum.map (fun ir => ir.2.exported (ir.1 + 1))))]))] := by
  rw [Static.fetchDataClick_rows B p ok data err items rs hvalue herr hfalsy hdata hrs hplain]
  have hlen : ¬ (rs.enum.map (fun ir => Listing.row (ir.1 + 1) ir.2)).length = 0 := by
    simpa [List.enum, List.length_eq_zero] using hne
  unfold Static.downloadExcelClick
  simp only
  rw [if_neg hlen, List.enum, Static.mapM_rowObject_rows]
  rcases reply with m | ⟨_ | _, blob⟩ <;>
    simp [Static.downloadExcelCatch, Static.Page.alert]

/-- C9 on the scenario of the specification. -/
theorem export_undoes_rendering_witness :
    (Static.downloadExcelClick (Static.fetchDataClick chromium Static.towerPage
        (.response true (.parsed (.obj [("data", .arr
          [.obj [("아파트명", .str "Tower A"), ("거래가격", .str "10억")]])]))))
        (.response true "PK")).requests
      = Static.towerPage.requests ++
        [.postForm "/fetch_data" [("complex_no", Static.towerPage.complex.value),
          ("trade_type", Static.towerPage.tradeType)],
         .postJson "/download_excel" (Json.stringify
          (.obj [("data", .arr ([towerListing].enum.map
            (fun ir => ir.2.exported (ir.1 + 1))))]))] :=
  export_undoes_rendering chromium Static.towerPage true _ none
    [.obj [("아파트명", .str "Tower A"), ("거래가격", .str "10억")]] [towerListing]
    (.response true "PK") (by decide) (by rfl) (by rfl) (by rfl)
    (List.Forall₂.cons
      (by
        intro key hkey
        simp only [listingFields, List.mem_cons, List.mem_singleton, List.not_mem_nil,
          or_false] at hkey
        rcases hkey with h | h | h | h | h | h | h | h | h | h | h <;> subst h <;> rfl)
      List.Forall₂.nil)
    (by simp) (by decide)

/-- C9 as stated fails on a value with a carriage return, which is no markup
character: the parser of `innerHTML` reads `a\rb` as `a\nb`, and the export
posts the line feed. -/
theorem export_turns_carriage_return_into_line_feed :
    (Static.downloadExcelClick (Static.fetchDataClick chromium Static.towerPage
        (.response true (.parsed (.obj [("data", .arr [.obj [("아파트명", .str "a\rb")]])]))))
        (.response true "PK")).requests
      = [.postForm "/fetch_data" [("complex_no", "123"), ("trade_type", "A1")],
         .postJson "/download_excel" (Json.stringify (.obj [("data", .arr [.obj
          [("순번", .str "1"), ("아파트명", .str "a\nb"), ("거래유형", .str ""), ("층수", .str ""),
           ("월세", .str ""), ("거래가격", .str ""), ("면적(m²)", .str ""), ("방향", .str ""),
           ("등록일", .str ""), ("동", .str ""), ("중개사무소", .str ""), ("특징", .str "")]])]))] ∧
    Json.stringify (.str "a\nb") ≠ Json.stringify (.str "a\rb") := by
  decide

/-! ## C10: the keyword in the region-search request -/

theorem Static.searchRegionThen_requests (p : Static.Page) (data : Json) :
    (Static.searchRegionThen p data).1.requests = p.requests := by
  unfold Static.searchRegionThen
  split
  · rfl
  · split
    · rfl
    · split <;> rfl

theorem Vecel.searchRegionTry_requests (B : Browser) (p : Vecel.Page) (reply : Reply) :
    (Vecel.searchRegionTry B p reply).1.requests = p.requests := by
  rcases reply with m | ⟨ok, m | data⟩
  · rfl
  · cases ok <;> rfl
  · cases ok
    · simp only [Vecel.searchRegionTry]
      split <;> rfl
    · simp only [Vecel.searchRegionTry]
      split
      · rfl
      · split
        · split <;> rfl
        · rfl

/-- What both region searches send for an input whose trimmed value is not
empty: the modal variant one form whose `keyword` field is the trimmed input,
the async variant one `GET` of the trimmed input appended as it is to
`/api/search_region?keyword=`. -/
theorem region_search_request (B : Browser) (reply : Reply) :
    (∀ p : Static.Page, jsTrim p.region ≠ "" →
      (Static.searchRegionClick p reply).requests
        = p.requests ++ [.postForm "/search" [("keyword", jsTrim p.region)]]) ∧
    (∀ p : Vecel.Page, jsTrim p.regionInput ≠ "" →
      (Vecel.searchRegionBtnClick B p reply).requests
        = p.requests ++ [.get ("/api/search_region?keyword=" ++ jsTrim p.regionInput)]) := by
  constructor
  · intro p h
    simp only [Static.searchRegionClick, if_neg h]
    rcases reply with m | ⟨ok, m | data⟩
    · rfl
    · rfl
    · have hreq := Static.searchRegionThen_requests
        { p with requests := p.requests ++ [.postForm "/search" [("keyword", jsTrim p.region)]] }
        data
      simp only at hreq ⊢
      rcases hthen : Static.searchRegionThen _ data with ⟨p', _ | e⟩
      · rw [hthen] at hreq
        simpa using hreq
      · rw [hthen] at hreq
        simpa [Static.searchRegionCatch, Static.Page.alert] using hreq
  · intro p h
    simp only [Vecel.searchRegionBtnClick, if_neg h]
    have hreq := Vecel.searchRegionTry_requests B
      { Vecel.updateStatus p "지역 검색 중..." false with
        complexSelect := { (Vecel.updateStatus p "지역 검색 중..." false).complexSelect.reset with
          disabled := true }
        complexesData := .arr []
        requests := p.requests ++ [.get ("/api/search_region?keyword=" ++ jsTrim p.regionInput)] }
      reply
    simp only [Vecel.updateStatus] at hreq ⊢
    rcases htry : Vecel.searchRegionTry B _ reply with ⟨p', _ | e⟩
    · rw [htry] at hreq
      simpa using hreq
    · rw [htry] at hreq
      simpa using hreq

/-- C10 at the input ` a&b `.  Both variants trim it to `a&b`.  The modal
variant posts a form whose `keyword` field is `a&b`.  The async variant
appends the keyword to the URL as it is, so the URL it requests is
`/api/search_region?keyword=a&b`, whose query holds the keyword `a` and a
second parameter `b`. -/
theorem async_search_url_splits_keyword :
    (Static.searchRegionClick (Static.freshPage " a&b ") (.failed "offline")).requests
      = [.postForm "/search" [("keyword", "a&b")]] ∧
    (Vecel.searchRegionBtnClick chromium (Vecel.freshPage " a&b ") (.failed "offline")).requests
      = [.get "/api/search_region?keyword=a&b"] ∧
    queryPairs "/api/search_region?keyword=a&b" = [("keyword", "a"), ("b", "")] := by
  decide

end Apt
